import Mathlib

/-!
Shallow embedding of the ingestion-run orchestration and storage tools of
the perception-with-intent repository: the functions of
perception_app/mcp_service/routers/trigger.py and
perception_app/mcp_service/routers/storage.py that the verified claims
concern.  Timestamps and durations are modelled as rationals, Python dict
fields that may be absent as Option, and the Firestore document store as
explicit values passed in and out (the newest matching query result, the
existing document, the documents written back).
-/

namespace Perception

/-! ### Python-style string helpers -/

/-- Python `a or b` on optional strings: None and the empty string are falsy. -/
def pyOrStr (a b : Option String) : Option String :=
  match a with
  | some s => if s = "" then b else some s
  | none => b

/-- Python truthiness of an optional string. -/
def truthyStr : Option String → Bool
  | none => false
  | some s => s != ""

/-- One left-to-right scanning pass of Python str.replace over a character
list, replacing each non-overlapping occurrence of pat with rep; the fuel is
an upper bound on the number of characters inspected. -/
def pyReplaceAux (pat rep : List Char) : Nat → List Char → List Char
  | 0, l => l
  | _ + 1, [] => []
  | fuel + 1, c :: cs =>
      if pat ≠ [] ∧ (c :: cs).take pat.length = pat then
        rep ++ pyReplaceAux pat rep fuel ((c :: cs).drop pat.length)
      else
        c :: pyReplaceAux pat rep fuel cs

/-- Python str.replace(pat, rep): every non-overlapping occurrence replaced,
scanning left to right. -/
def pyReplace (s pat rep : String) : String :=
  String.mk (pyReplaceAux pat.data rep.data s.data.length s.data)

/-- The remainder of a character list after the first occurrence of sep, if
sep occurs at all. -/
def afterFirst (sep : List Char) : Nat → List Char → Option (List Char)
  | 0, _ => none
  | _ + 1, [] => none
  | fuel + 1, c :: cs =>
      if (c :: cs).take sep.length = sep then some ((c :: cs).drop sep.length)
      else afterFirst sep fuel cs

/-- urllib.parse.urlparse(url).netloc for absolute URLs: the portion between
the first "://" and the next path, query or fragment delimiter. -/
def netloc (url : String) : String :=
  match afterFirst ("://".data) url.data.length url.data with
  | some rest => String.mk (rest.takeWhile (fun c => c != '/' && c != '?' && c != '#'))
  | none => ""

/-- The chunking loop `for i in range(0, len(l), n)` taking slices
`l[i : i + n]`, with explicit fuel. -/
def chunksOfAux (n : Nat) : Nat → List α → List (List α)
  | 0, _ => []
  | _, [] => []
  | fuel + 1, l@(_ :: _) => l.take n :: chunksOfAux n fuel (l.drop n)

/-- The list of consecutive slices of size at most n (the Python pattern
`l[i : i + n]` for i in range(0, len(l), n)). -/
def chunksOf (n : Nat) (l : List α) : List (List α) :=
  chunksOfAux n l.length l

/-! ### trigger.py: evaluate_run_success

The stats counters are naturals; the duration field of the run document may
be absent (`run_data.get("duration", 0)`), which is modelled as none.  The
float division of the source is modelled as exact division of rationals. -/

structure RunStats where
  articlesStored : Nat
  sourcesChecked : Nat
  sourcesFailed : Nat
deriving DecidableEq

structure RunData where
  stats : RunStats
  duration : Option ℚ
deriving DecidableEq

/-- evaluate_run_success (trigger.py, lines 79-102). -/
def evaluate_run_success (run_data : RunData) : Bool :=
  let articles_stored := run_data.stats.articlesStored
  let sources_checked := run_data.stats.sourcesChecked
  let sources_failed := run_data.stats.sourcesFailed
  let duration := run_data.duration.getD 0
  if articles_stored ≤ 0 then false
  else if 0 < sources_checked ∧ (sources_failed : ℚ) / (sources_checked : ℚ) ≥ 1 / 2 then
    false
  else if duration ≠ 0 ∧ duration > 300 then false
  else true

/-! ### trigger.py: check_active_run and the trigger endpoint guard -/

inductive RunStatus
  | accepted
  | running
  | completed
  | completed_with_errors
  | failed
deriving DecidableEq

/-- An entry of a run document's errors list ({message, source?, url?}). -/
structure ErrorEntry where
  message : String
  source : Option String := none
  url : Option String := none
deriving DecidableEq

/-- The startedAt field of a run document as check_active_run probes it:
either falsy/absent, or a value with a .timestamp() method, or a truthy
value of an unexpected shape (no .timestamp() method). -/
inductive StartedAt
  | absent
  | valid (t : ℚ)
  | malformed
deriving DecidableEq

/-- The slice of an ingestion_runs document that check_active_run reads and
writes. -/
structure RunDoc where
  id : String
  status : RunStatus
  phase : String
  startedAt : StartedAt
  completedAt : Option ℚ
  errors : List ErrorEntry
deriving DecidableEq

/-- What one call of check_active_run does: the run id it returns (blocking
a new run) and the stale-cleanup update it force-writes, if any. -/
structure GuardResult where
  active : Option String
  cleaned : Option RunDoc
deriving DecidableEq

/-- The stale-run update written by check_active_run (trigger.py, lines
141-148). -/
def staleUpdate (doc : RunDoc) (now : ℚ) (age : ℚ) : RunDoc :=
  { doc with
      status := RunStatus.failed
      phase := "stale_cleanup"
      completedAt := some now
      errors := [{ message := "Marked as failed: stale after " ++ toString ⌊age⌋ ++ "s" }] }

/-- check_active_run (trigger.py, lines 105-159).  The Firestore query
(status in [accepted, running], ordered by startedAt descending, limit 1)
is modelled by its result: the newest such run document, or none. -/
def check_active_run (now : ℚ) (newest : Option RunDoc) : GuardResult :=
  match newest with
  | none => { active := none, cleaned := none }
  | some doc =>
    match doc.startedAt with
    | StartedAt.absent =>
        -- `if started_at:` is false, the loop body is skipped, return None
        { active := none, cleaned := none }
    | StartedAt.valid t =>
        let age := now - t
        if age < 600 then { active := some doc.id, cleaned := none }
        else { active := none, cleaned := some (staleUpdate doc now age) }
    | StartedAt.malformed =>
        -- age_seconds = 601: treat as stale to avoid blocking all future runs
        let age : ℚ := 601
        if age < 600 then { active := some doc.id, cleaned := none }
        else { active := none, cleaned := some (staleUpdate doc now age) }

/-- The caller-visible outcome of POST /ingestion. -/
inductive TriggerOutcome
  | conflict (active_run_id : String)
  | accepted (run_id : String)
deriving DecidableEq

/-- The idempotency-guard decision of trigger_ingestion (trigger.py, lines
514-524): 409 conflict naming the active run, or 202 accepted with the
fresh run id. -/
def trigger_ingestion (now : ℚ) (newest : Option RunDoc) (new_run_id : String) :
    TriggerOutcome :=
  match (check_active_run now newest).active with
  | some id => TriggerOutcome.conflict id
  | none => TriggerOutcome.accepted new_run_id

/-! ### trigger.py: finalization of run_ingestion_pipeline -/

/-- The final status and capped error list written by the last update of
run_ingestion_pipeline (trigger.py, lines 429-454). -/
def final_status (errors : List ErrorEntry) (articles_stored : Nat) : RunStatus :=
  if errors ≠ [] ∧ articles_stored = 0 then RunStatus.failed
  else if errors ≠ [] then RunStatus.completed_with_errors
  else RunStatus.completed

/-- The fields of the final run-document update that depend on the
accumulated errors and counters. -/
structure FinalUpdate where
  status : RunStatus
  phase : String
  duration : ℚ
  errors : List ErrorEntry
deriving DecidableEq

/-- The final update of run_ingestion_pipeline: status decided by
final_status, phase done, the error list capped at its first 50 entries. -/
def finalize_run (errors : List ErrorEntry) (articles_stored : Nat) (dur : ℚ) :
    FinalUpdate :=
  { status := final_status errors articles_stored
    phase := "done"
    duration := dur
    errors := errors.take 50 }

/-! ### storage.py data model (shared with the trigger pipeline) -/

/-- The Article pydantic model of storage.py (lines 24-39).  Note that it
has no author field. -/
structure Article where
  title : String
  url : String
  source_id : String
  published_at : String
  summary : Option String := none
  content : Option String := none
  ai_summary : Option String := none
  ai_tags : List String := []
  relevance_score : Option ℚ := none
  categories : List String := []
  source_name : Option String := none
  category : Option String := none
deriving DecidableEq

/-- The FeedMetadata pydantic model of storage.py (lines 58-64). -/
structure FeedMetadata where
  title : Option String := none
  link : Option String := none
  description : Option String := none
  author : Option String := none
deriving DecidableEq

/-! ### trigger.py: the fetching_feeds phase of run_ingestion_pipeline -/

/-- A configured source as load_sources produces it. -/
structure Source where
  source_id : String
  name : String
  url : String
  category : String
deriving DecidableEq

/-- A raw article dict returned by the fetch_rss_feed tool; each field is
read with .get and may be absent. -/
structure RawArticle where
  title : Option String := none
  url : Option String := none
  published_at : Option String := none
  summary : Option String := none
  raw_content : Option String := none
  content_snippet : Option String := none
  categories : Option (List String) := none
deriving DecidableEq

/-- The normalized article dict appended to all_articles by
run_ingestion_pipeline (trigger.py, lines 311-324). -/
def normalize_article (source : Source) (raw : RawArticle) : Article :=
  { title := raw.title.getD "Untitled"
    url := raw.url.getD ""
    source_id := source.source_id
    source_name := some source.name
    category := some source.category
    published_at := raw.published_at.getD ""
    summary := raw.summary
    content := pyOrStr raw.raw_content raw.content_snippet
    categories := raw.categories.getD [] }

/-- One element of the asyncio.gather result list: either an exception
surfaced by return_exceptions=True, or the dict fetch_single_feed returned -
with an error key after any caught failure (trigger.py, lines 224-231), or
without one on success. -/
inductive FetchOutcome
  | exn (message : String)
  | failure (source : Source) (message : String)
  | success (source : Source) (articles : List RawArticle) (feed_metadata : Option FeedMetadata)
deriving DecidableEq

/-- What the result-processing loop accumulates (trigger.py, lines 276-324). -/
structure HarvestAgg where
  errors : List ErrorEntry
  all_articles : List Article
  sources_failed : Nat
  sources_processed : Nat
deriving DecidableEq

/-- One iteration of the result-processing loop of run_ingestion_pipeline
(trigger.py, lines 291-324). -/
def harvest_step (agg : HarvestAgg) (result : FetchOutcome) : HarvestAgg :=
  match result with
  | FetchOutcome.exn msg =>
      { agg with
          errors := agg.errors ++ [{ message := msg }]
          sources_failed := agg.sources_failed + 1 }
  | FetchOutcome.failure source msg =>
      { agg with
          sources_processed := agg.sources_processed + 1
          errors := agg.errors ++ [{ message := msg, source := some source.name, url := some source.url }]
          sources_failed := agg.sources_failed + 1 }
  | FetchOutcome.success source articles _ =>
      { agg with
          sources_processed := agg.sources_processed + 1
          all_articles := agg.all_articles ++ articles.map (normalize_article source) }

/-- The whole result-processing loop, started from empty accumulators. -/
def process_fetch_results (results : List FetchOutcome) : HarvestAgg :=
  results.foldl harvest_step
    { errors := [], all_articles := [], sources_failed := 0, sources_processed := 0 }

/-- Whether a gather result is an exception object (skipped before the
sources_processed increment). -/
def fetchIsExn : FetchOutcome → Bool
  | FetchOutcome.exn _ => true
  | _ => false

/-- Whether a gather result counts as a failed source. -/
def fetchFailed : FetchOutcome → Bool
  | FetchOutcome.exn _ => true
  | FetchOutcome.failure _ _ => true
  | FetchOutcome.success _ _ _ => false

/-- The error entry a gather result contributes, if any. -/
def fetchError : FetchOutcome → Option ErrorEntry
  | FetchOutcome.exn msg => some { message := msg }
  | FetchOutcome.failure source msg =>
      some { message := msg, source := some source.name, url := some source.url }
  | FetchOutcome.success _ _ _ => none

/-- The normalized articles a gather result contributes. -/
def fetchArticles : FetchOutcome → List Article
  | FetchOutcome.success source articles _ => articles.map (normalize_article source)
  | _ => []

/-! ### storage.py: store_articles -/

structure StoreArticlesRequest where
  run_id : String
  articles : List Article
deriving DecidableEq

/-- The storage_stats dict of StoreArticlesResponse: on success the keys
firestore_writes / duplicates_skipped / batch_count; on total failure a
single error key. -/
inductive StorageStats
  | ok (firestore_writes : Nat) (duplicates_skipped : Nat) (batch_count : Nat)
  | error (message : String)
deriving DecidableEq

structure StoreArticlesResponse where
  run_id : String
  stored_count : Nat
  failed_count : Nat
  failed_urls : List String
  storage_stats : StorageStats
deriving DecidableEq

/-- One step of the dedup loop of store_articles (storage.py, lines
109-114): the state is (seen_urls, unique_articles). -/
def dedup_step (acc : List String × List Article) (article : Article) :
    List String × List Article :=
  if article.url ≠ "" ∧ article.url ∉ acc.1 then
    (acc.1 ++ [article.url], acc.2 ++ [article])
  else acc

/-- The unique_articles list computed by store_articles: first occurrence of
each truthy (non-empty) URL wins, articles with a falsy URL are dropped. -/
def dedup_articles (articles : List Article) : List Article :=
  (articles.foldl dedup_step ([], [])).2

/-- The per-article accumulators of the batch-write loop of store_articles
(storage.py, lines 117-164); written records the batch.set calls issued. -/
structure StoreLoopState where
  stored_count : Nat
  failed_count : Nat
  failed_urls : List String
  written : List Article
deriving DecidableEq

/-- The body of the inner per-article loop of store_articles (storage.py,
lines 127-162): preparing the document either succeeds (batch.set, count it
stored) or raises (count it failed and record its URL).  prepFails models
which articles raise inside the try block. -/
def store_chunk_step (prepFails : Article → Bool) (st : StoreLoopState)
    (article : Article) : StoreLoopState :=
  if prepFails article then
    { st with
        failed_count := st.failed_count + 1
        failed_urls := st.failed_urls ++ [article.url] }
  else
    { st with
        stored_count := st.stored_count + 1
        written := st.written ++ [article] }

/-- The Firestore per-batch write limit used by store_articles. -/
def store_batch_size : Nat := 500

/-- store_articles (storage.py, lines 85-212).  dbError models an exception
escaping the whole try block (e.g. the store unreachable), answered by the
total-failure response of lines 206-212; prepFails models per-article
preparation failures.  Returns the response together with the list of
documents for which batch.set was called. -/
def store_articles (dbError : Option String) (prepFails : Article → Bool)
    (request : StoreArticlesRequest) : StoreArticlesResponse × List Article :=
  match dbError with
  | some e =>
      ({ run_id := request.run_id
         stored_count := 0
         failed_count := request.articles.length
         failed_urls := request.articles.map (fun a => a.url)
         storage_stats := StorageStats.error e }, [])
  | none =>
      let unique_articles := dedup_articles request.articles
      let duplicates_skipped := request.articles.length - unique_articles.length
      let chunks := chunksOf store_batch_size unique_articles
      let final := chunks.foldl (fun st chunk => chunk.foldl (store_chunk_step prepFails) st)
        { stored_count := 0, failed_count := 0, failed_urls := [], written := [] }
      ({ run_id := request.run_id
         stored_count := final.stored_count
         failed_count := final.failed_count
         failed_urls := final.failed_urls
         storage_stats := StorageStats.ok final.stored_count duplicates_skipped
           ((unique_articles.length + store_batch_size - 1) / store_batch_size) },
       final.written)

/-! ### storage.py: upsert_author -/

structure UpsertAuthorRequest where
  feed_url : String
  articles : List Article
  feed_metadata : Option FeedMetadata
deriving DecidableEq

structure UpsertAuthorResponse where
  author_id : Option String
  author_name : Option String
  status : String
  error : Option String
deriving DecidableEq

/-- An authors-collection document as upsert_author reads and writes it.
Python set iteration order is unspecified, so the categories array is
modelled as a finite set of strings; the field may be absent. -/
structure AuthorDoc where
  name : String
  feedUrl : String
  websiteUrl : String
  lastPublished : ℚ
  lastFetched : ℚ
  updatedAt : ℚ
  status : String
  consecutiveErrors : Nat
  articleCount : Nat
  categories : Option (Finset String)
  feedDescription : Option String
  createdAt : Option ℚ
deriving DecidableEq

/-- The update_data dict built by upsert_author: categories, feedDescription
and createdAt are only present under their respective conditions. -/
structure AuthorUpdate where
  name : String
  feedUrl : String
  websiteUrl : String
  lastPublished : ℚ
  lastFetched : ℚ
  updatedAt : ℚ
  status : String
  consecutiveErrors : Nat
  articleCount : Nat
  categories : Option (Finset String)
  feedDescription : Option String
  createdAt : Option ℚ
deriving DecidableEq

/-- Firestore doc_ref.set(update_data, merge=True): every field present in
the update replaces the stored field (arrays included, wholesale); fields
absent from the update keep their stored value. -/
def merge_author (existing : Option AuthorDoc) (u : AuthorUpdate) : AuthorDoc :=
  { name := u.name
    feedUrl := u.feedUrl
    websiteUrl := u.websiteUrl
    lastPublished := u.lastPublished
    lastFetched := u.lastFetched
    updatedAt := u.updatedAt
    status := u.status
    consecutiveErrors := u.consecutiveErrors
    articleCount := u.articleCount
    categories :=
      match u.categories with
      | some c => some c
      | none => match existing with | some d => d.categories | none => none
    feedDescription :=
      match u.feedDescription with
      | some f => some f
      | none => match existing with | some d => d.feedDescription | none => none
    createdAt :=
      match u.createdAt with
      | some t => some t
      | none => match existing with | some d => d.createdAt | none => none }

/-- The newest-article scan of upsert_author (storage.py, lines 252-265):
falsy published_at strings are skipped, parse failures are swallowed, and if
nothing parses the fallback is now.  parseDate models
datetime.fromisoformat over the normalized string. -/
def newest_published (parseDate : String → Option ℚ) (articles : List Article)
    (now : ℚ) : ℚ :=
  let cands := articles.filterMap
    (fun a => if a.published_at = "" then none else parseDate a.published_at)
  (cands.foldl
    (fun acc d =>
      match acc with
      | none => some d
      | some m => if d > m then some d else some m)
    none).getD now

/-- The author-name resolution of upsert_author (storage.py, lines 267-282).
The Article model has no author field, so the hasattr(article, "author")
probe of the legacy first-article fallback is always False and that loop
never assigns a name; the remaining chain is feed metadata title, or feed
metadata author, or the feed URL's netloc with every occurrence of "www."
removed (Python str.replace replaces all occurrences). -/
def resolve_author_name (feed_metadata : Option FeedMetadata)
    (articles : List Article) (feed_url : String) : String :=
  let author_name : Option String :=
    match feed_metadata with
    | some m => pyOrStr m.title m.author
    | none => none
  let author_name : Option String :=
    if truthyStr author_name then author_name
    else (articles.filterMap (fun _ => (none : Option String))).head?
  if truthyStr author_name then author_name.getD ""
  else pyReplace (netloc feed_url) "www." ""

/-- urllib.parse.urlparse(url).scheme for absolute URLs containing "://". -/
def urlScheme (url : String) : String :=
  match afterFirst ("://".data) url.data.length url.data with
  | some _ => String.mk (url.data.takeWhile (fun c => c != ':'))
  | none => ""

/-- The website-URL resolution of upsert_author (storage.py, lines 284-290). -/
def resolve_website_url (feed_metadata : Option FeedMetadata) (feed_url : String) :
    String :=
  match feed_metadata with
  | some m =>
      if truthyStr m.link then m.link.getD ""
      else urlScheme feed_url ++ "://" ++ netloc feed_url
  | none => urlScheme feed_url ++ "://" ++ netloc feed_url

/-- The category collection of upsert_author (storage.py, lines 292-297):
the set of truthy categories across the batch's articles. -/
def batch_categories (articles : List Article) : Finset String :=
  ((articles.map (fun a => a.categories)).flatten.filter (fun c => c != "")).toFinset

/-- upsert_author (storage.py, lines 215-363).  dbError models an exception
escaping the try block (status failed); urlHash models the sha256 hex-digest
prefix used for the document id; existing is what doc_ref.get() finds.
Returns the response together with the document written, if any. -/
def upsert_author (dbError : Option String) (urlHash : String → String)
    (parseDate : String → Option ℚ) (existing : Option AuthorDoc) (now : ℚ)
    (request : UpsertAuthorRequest) : UpsertAuthorResponse × Option AuthorDoc :=
  if request.articles = [] then
    ({ author_id := none, author_name := none, status := "skipped",
       error := some "No articles to process" }, none)
  else
    match dbError with
    | some e =>
        ({ author_id := none, author_name := none, status := "failed",
           error := some e }, none)
    | none =>
        let author_id := "author-" ++ urlHash request.feed_url
        let author_name := resolve_author_name request.feed_metadata request.articles request.feed_url
        let categories := batch_categories request.articles
        let base : AuthorUpdate :=
          { name := author_name
            feedUrl := request.feed_url
            websiteUrl := resolve_website_url request.feed_metadata request.feed_url
            lastPublished := newest_published parseDate request.articles now
            lastFetched := now
            updatedAt := now
            status := "active"
            consecutiveErrors := 0
            articleCount := 0
            categories := if categories = ∅ then none else some categories
            feedDescription :=
              match request.feed_metadata with
              | some m => if truthyStr m.description then m.description else none
              | none => none
            createdAt := none }
        let updateAndStatus : AuthorUpdate × String :=
          match existing with
          | some d => ({ base with articleCount := d.articleCount + request.articles.length }, "updated")
          | none =>
              ({ base with createdAt := some now, articleCount := request.articles.length }, "created")
        ({ author_id := some author_id
           author_name := some author_name
           status := updateAndStatus.2
           error := none },
         some (merge_author existing updateAndStatus.1))

/-! ### Claim readings under test, and concrete inputs -/

/-- A minimal concrete article for concrete instances. -/
def mkArticle (u : String) (cats : List String) : Article :=
  { title := "t", url := u, source_id := "s", published_at := "", categories := cats }

/-- How claim C2 ages the newest active run: a startedAt that cannot be
read as a timestamp counts as age 601. -/
def claimedAge (now : ℚ) : StartedAt → ℚ
  | StartedAt.valid t => now - t
  | _ => 601

/-- Claim C2 as stated: the guard is a function of the newest run with
status accepted or running; age < 600 blocks with a conflict carrying that
run's id, and age ≥ 600 - unreadable startedAt counting as 601 - always
force-writes the stale_cleanup update and accepts the new request. -/
def C2_claim_statement : Prop :=
  ∀ (now : ℚ) (doc : RunDoc) (rid : String),
    doc.status = RunStatus.accepted ∨ doc.status = RunStatus.running →
    (claimedAge now doc.startedAt < 600 →
        check_active_run now (some doc) = { active := some doc.id, cleaned := none } ∧
        trigger_ingestion now (some doc) rid = TriggerOutcome.conflict doc.id) ∧
    (600 ≤ claimedAge now doc.startedAt →
        (check_active_run now (some doc)).active = none ∧
        (∃ u, (check_active_run now (some doc)).cleaned = some u ∧
            u.status = RunStatus.failed ∧ u.phase = "stale_cleanup" ∧
            u.completedAt = some now ∧ u.errors ≠ []) ∧
        trigger_ingestion now (some doc) rid = TriggerOutcome.accepted rid)

/-- An active run document whose startedAt field is missing or falsy. -/
def absentDoc : RunDoc :=
  { id := "run-a", status := RunStatus.accepted, phase := "initializing",
    startedAt := StartedAt.absent, completedAt := none, errors := [] }

/-- Collapsing every group of articles that share a URL to the group's
first occurrence.  Modelled from the claim's words, for comparison with
the dedup loop of store_articles. -/
def collapse_to_first_occurrence (articles : List Article) : List Article :=
  articles.foldl
    (fun acc a => if a.url ∈ acc.map (fun b => b.url) then acc else acc ++ [a]) []

/-- Claim C5 as stated: within one invocation articles sharing a URL are
collapsed to the first occurrence, those first occurrences are exactly the
persisted documents, duplicates_skipped is the input length minus the
number of unique articles, and batch_count is the ceiling of unique/500. -/
def C5_claim_statement : Prop :=
  ∀ req : StoreArticlesRequest,
    (store_articles none (fun _ => false) req).2 = collapse_to_first_occurrence req.articles ∧
    (store_articles none (fun _ => false) req).1.storage_stats =
      StorageStats.ok (collapse_to_first_occurrence req.articles).length
        (req.articles.length - (collapse_to_first_occurrence req.articles).length)
        (((collapse_to_first_occurrence req.articles).length + store_batch_size - 1) /
          store_batch_size)

/-- A store request whose one article has an empty URL. -/
def emptyUrlReq : StoreArticlesRequest :=
  { run_id := "r0", articles := [mkArticle "" []] }

/-- The [a,a,b,c,c,c] request of the dedup-accounting example. -/
def exStoreReq : StoreArticlesRequest :=
  { run_id := "r1",
    articles := [mkArticle "a" [], mkArticle "a" [], mkArticle "b" [],
      mkArticle "c" [], mkArticle "c" [], mkArticle "c" []] }

/-- The categories of a prior author record, as claim C7 reads them: empty
when there is no record or no categories field. -/
def prior_categories : Option AuthorDoc → Finset String
  | some d => d.categories.getD ∅
  | none => ∅

/-- Claim C7 as stated: after a successful upsert with a non-empty batch,
articleCount is the prior count (0 if absent) plus the batch size, and the
stored categories are the union of the prior record's categories and the
batch's categories. -/
def C7_claim_statement : Prop :=
  ∀ (urlHash : String → String) (parseDate : String → Option ℚ)
    (existing : Option AuthorDoc) (now : ℚ) (req : UpsertAuthorRequest),
    req.articles ≠ [] →
    ∃ w, (upsert_author none urlHash parseDate existing now req).2 = some w ∧
      w.articleCount =
        (match existing with | some d => d.articleCount | none => 0) + req.articles.length ∧
      w.categories.getD ∅ = prior_categories existing ∪ batch_categories req.articles

/-- A hash stand-in for concrete upsert instances. -/
def demoHash : String → String := fun s => s

/-- A date parser stand-in that parses nothing. -/
def demoParse : String → Option ℚ := fun _ => none

/-- First batch of the sequential-upsert example: 5 articles, category x. -/
def demoReq1 : UpsertAuthorRequest :=
  { feed_url := "https://f.example/rss",
    articles := [mkArticle "u1" ["x"], mkArticle "u2" ["x"], mkArticle "u3" ["x"],
      mkArticle "u4" ["x"], mkArticle "u5" ["x"]],
    feed_metadata := none }

/-- Second batch of the sequential-upsert example: 3 articles, category y. -/
def demoReq2 : UpsertAuthorRequest :=
  { feed_url := "https://f.example/rss",
    articles := [mkArticle "v1" ["y"], mkArticle "v2" ["y"], mkArticle "v3" ["y"]],
    feed_metadata := none }

/-- A default author document (only used under Option.getD on calls known
to write something). -/
def blankAuthor : AuthorDoc :=
  { name := "", feedUrl := "", websiteUrl := "", lastPublished := 0, lastFetched := 0,
    updatedAt := 0, status := "", consecutiveErrors := 0, articleCount := 0,
    categories := none, feedDescription := none, createdAt := none }

/-- The record written by the first call of the sequential-upsert example,
starting from no record. -/
def demo_w1 : AuthorDoc :=
  ((upsert_author none demoHash demoParse none 0 demoReq1).2).getD blankAuthor

/-- The record written by the second call, on top of the first call's. -/
def demo_w2 : AuthorDoc :=
  ((upsert_author none demoHash demoParse (some demo_w1) 0 demoReq2).2).getD blankAuthor

/-- A prior author record with an accumulated error streak. -/
def priorErrDoc : AuthorDoc :=
  { name := "Old Name", feedUrl := "https://f.example/rss", websiteUrl := "https://f.example",
    lastPublished := 0, lastFetched := 0, updatedAt := 0, status := "error",
    consecutiveErrors := 7, articleCount := 2, categories := some {"old"},
    feedDescription := none, createdAt := some 0 }

/-- Stripping one leading "www." from a string, as claim C8 words it. -/
def stripLeadingWww (s : String) : String :=
  if s.data.take 4 = "www.".data then String.mk (s.data.drop 4) else s

/-- Claim C8's reading of the name resolution: feed metadata title, else
feed metadata author, else the first article's author field (the Article
model has no author field, so that step never yields a name), else the
domain of the feed URL with a leading "www." stripped. -/
def claimed_resolve_author_name (feed_metadata : Option FeedMetadata)
    (articles : List Article) (feed_url : String) : String :=
  let author_name : Option String :=
    match feed_metadata with
    | some m => pyOrStr m.title m.author
    | none => none
  let author_name : Option String :=
    if truthyStr author_name then author_name
    else (articles.filterMap (fun _ => (none : Option String))).head?
  if truthyStr author_name then author_name.getD ""
  else stripLeadingWww (netloc feed_url)

/-- Claim C8 as stated: the resolved author name always follows the claimed
priority chain, with only a leading "www." stripped from the domain. -/
def C8_claim_statement : Prop :=
  ∀ (fm : Option FeedMetadata) (articles : List Article) (url : String),
    resolve_author_name fm articles url = claimed_resolve_author_name fm articles url

/-! ### General lemmas about the loop helpers -/

theorem chunksOfAux_flatten (n : Nat) :
    ∀ (fuel : Nat) (l : List α), l.length ≤ fuel →
      (chunksOfAux (n + 1) fuel l).flatten = l := by
  intro fuel
  induction fuel with
  | zero =>
    intro l h
    simp only [Nat.le_zero, List.length_eq_zero] at h
    simp [h, chunksOfAux]
  | succ m ih =>
    intro l h
    match l with
    | [] => simp [chunksOfAux]
    | x :: xs =>
      simp only [chunksOfAux, List.flatten_cons]
      rw [ih]
      · exact List.take_append_drop _ _
      · simp only [List.length_cons] at h
        simp only [List.length_drop, List.length_cons]
        omega

theorem chunksOf_flatten (n : Nat) (l : List α) : (chunksOf (n + 1) l).flatten = l :=
  chunksOfAux_flatten n l.length l le_rfl

theorem chunksOfAux_mem_length (n : Nat) :
    ∀ (fuel : Nat) (l : List α) (c : List α),
      c ∈ chunksOfAux (n + 1) fuel l → c.length ≤ n + 1 := by
  intro fuel
  induction fuel with
  | zero => intro l c h; simp [chunksOfAux] at h
  | succ m ih =>
    intro l c h
    match l with
    | [] => simp [chunksOfAux] at h
    | x :: xs =>
      simp only [chunksOfAux, List.mem_cons] at h
      rcases h with h | h
      · subst h; exact List.length_take_le _ _
      · exact ih _ _ h

theorem chunksOf_mem_length (n : Nat) (l : List α) (c : List α)
    (h : c ∈ chunksOf (n + 1) l) : c.length ≤ n + 1 :=
  chunksOfAux_mem_length n l.length l c h

theorem foldl_chunks (f : β → α → β) (init : β) (L : List (List α)) :
    L.foldl (fun st c => c.foldl f st) init = L.flatten.foldl f init := by
  induction L generalizing init with
  | nil => simp
  | cons c L ih => simp [ih]

theorem harvest_foldl (results : List FetchOutcome) (init : HarvestAgg) :
    results.foldl harvest_step init =
      { errors := init.errors ++ results.filterMap fetchError
        all_articles := init.all_articles ++ (results.map fetchArticles).flatten
        sources_failed := init.sources_failed + (results.filter fetchFailed).length
        sources_processed :=
          init.sources_processed + (results.filter (fun r => !fetchIsExn r)).length } := by
  induction results generalizing init with
  | nil => simp
  | cons r rs ih =>
    cases r with
    | exn msg =>
        simp only [List.foldl_cons, harvest_step, ih, List.filterMap_cons, fetchError,
          List.map_cons, fetchArticles, List.flatten_cons, List.filter_cons, fetchFailed,
          fetchIsExn]
        simp [HarvestAgg.mk.injEq, List.append_assoc]
        try omega
    | failure source msg =>
        simp only [List.foldl_cons, harvest_step, ih, List.filterMap_cons, fetchError,
          List.map_cons, fetchArticles, List.flatten_cons, List.filter_cons, fetchFailed,
          fetchIsExn]
        simp [HarvestAgg.mk.injEq, List.append_assoc]
        try omega
    | success source articles fm =>
        simp only [List.foldl_cons, harvest_step, ih, List.filterMap_cons, fetchError,
          List.map_cons, fetchArticles, List.flatten_cons, List.filter_cons, fetchFailed,
          fetchIsExn]
        simp [HarvestAgg.mk.injEq, List.append_assoc]
        try omega

theorem fetchError_length (results : List FetchOutcome) :
    (results.filterMap fetchError).length = (results.filter fetchFailed).length := by
  induction results with
  | nil => rfl
  | cons r rs ih => cases r <;> simp [fetchError, fetchFailed, ih]

theorem store_loop (pf : Article → Bool) :
    ∀ (l : List Article) (st : StoreLoopState),
      l.foldl (store_chunk_step pf) st =
        { stored_count := st.stored_count + (l.filter (fun a => !pf a)).length
          failed_count := st.failed_count + (l.filter pf).length
          failed_urls := st.failed_urls ++ (l.filter pf).map (fun a => a.url)
          written := st.written ++ l.filter (fun a => !pf a) } := by
  intro l
  induction l with
  | nil => intro st; simp
  | cons a l ih =>
    intro st
    by_cases h : pf a
    · simp [store_chunk_step, h, ih, List.append_assoc]
      omega
    · simp [store_chunk_step, h, ih, List.append_assoc]
      omega

theorem store_articles_none (pf : Article → Bool) (req : StoreArticlesRequest) :
    store_articles none pf req =
      ({ run_id := req.run_id
         stored_count := ((dedup_articles req.articles).filter (fun a => !pf a)).length
         failed_count := ((dedup_articles req.articles).filter pf).length
         failed_urls := ((dedup_articles req.articles).filter pf).map (fun a => a.url)
         storage_stats :=
           StorageStats.ok ((dedup_articles req.articles).filter (fun a => !pf a)).length
             (req.articles.length - (dedup_articles req.articles).length)
             (((dedup_articles req.articles).length + store_batch_size - 1) /
               store_batch_size) },
       (dedup_articles req.articles).filter (fun a => !pf a)) := by
  simp only [store_articles]
  rw [foldl_chunks]
  rw [show store_batch_size = 499 + 1 from rfl, chunksOf_flatten]
  rw [store_loop]
  simp

theorem dedup_foldl_eq_collapse :
    ∀ (l : List Article) (acc : List Article),
      (l.foldl dedup_step (acc.map (fun a => a.url), acc)).2 =
        (l.filter (fun a => a.url != "")).foldl
          (fun acc a => if a.url ∈ acc.map (fun b => b.url) then acc else acc ++ [a]) acc := by
  intro l
  induction l with
  | nil => intro acc; simp
  | cons a l ih =>
    intro acc
    by_cases hu : a.url = ""
    · simp only [List.foldl_cons, dedup_step, hu, List.filter_cons]
      simp only [ne_eq, not_true_eq_false, false_and, if_false, bne_self_eq_false,
        Bool.false_eq_true]
      simpa [hu] using ih acc
    · by_cases hmem : a.url ∈ acc.map (fun b => b.url)
      · simp only [List.foldl_cons, dedup_step, List.filter_cons]
        rw [if_neg (by simp [hmem]), if_pos (by simp [hu])]
        simp only [List.foldl_cons, if_pos hmem]
        exact ih acc
      · simp only [List.foldl_cons, dedup_step, List.filter_cons]
        rw [if_pos ⟨hu, by simpa using hmem⟩, if_pos (by simp [hu])]
        simp only [List.foldl_cons, if_neg hmem]
        have : acc.map (fun a => a.url) ++ [a.url] = (acc ++ [a]).map (fun a => a.url) := by
          simp
        rw [this]
        exact ih (acc ++ [a])

theorem dedup_articles_eq_collapse (l : List Article) :
    dedup_articles l = collapse_to_first_occurrence (l.filter (fun a => a.url != "")) := by
  have h := dedup_foldl_eq_collapse l []
  simpa [dedup_articles, collapse_to_first_occurrence] using h

theorem collapse_mem :
    ∀ (l : List Article) (acc : List Article) (x : Article),
      x ∈ l.foldl
          (fun acc a => if a.url ∈ acc.map (fun b => b.url) then acc else acc ++ [a]) acc →
      x ∈ acc ∨ x ∈ l := by
  intro l
  induction l with
  | nil => intro acc x h; exact Or.inl h
  | cons a l ih =>
    intro acc x h
    simp only [List.foldl_cons] at h
    by_cases hmem : a.url ∈ acc.map (fun b => b.url)
    · rw [if_pos hmem] at h
      rcases ih acc x h with h | h
      · exact Or.inl h
      · exact Or.inr (List.mem_cons_of_mem _ h)
    · rw [if_neg hmem] at h
      rcases ih (acc ++ [a]) x h with h | h
      · rcases List.mem_append.mp h with h | h
        · exact Or.inl h
        · simp only [List.mem_singleton] at h
          exact Or.inr (h ▸ List.mem_cons_self _ _)
      · exact Or.inr (List.mem_cons_of_mem _ h)

theorem collapse_length_le :
    ∀ (l : List Article) (acc : List Article),
      (l.foldl
          (fun acc a => if a.url ∈ acc.map (fun b => b.url) then acc else acc ++ [a])
          acc).length ≤ acc.length + l.length := by
  intro l
  induction l with
  | nil => intro acc; simp
  | cons a l ih =>
    intro acc
    simp only [List.foldl_cons, List.length_cons]
    by_cases hmem : a.url ∈ acc.map (fun b => b.url)
    · rw [if_pos hmem]
      calc _ ≤ acc.length + l.length := ih acc
        _ ≤ acc.length + (l.length + 1) := by omega
    · rw [if_neg hmem]
      calc _ ≤ (acc ++ [a]).length + l.length := ih (acc ++ [a])
        _ ≤ acc.length + (l.length + 1) := by simp; omega

theorem dedup_no_empty_url (l : List Article) :
    ∀ a ∈ dedup_articles l, a.url ≠ "" := by
  intro a ha
  rw [dedup_articles_eq_collapse] at ha
  rcases collapse_mem _ [] a ha with h | h
  · simp at h
  · have := List.of_mem_filter h
    simpa using this

theorem dedup_length_le (l : List Article) :
    (dedup_articles l).length ≤ l.length := by
  rw [dedup_articles_eq_collapse]
  calc (collapse_to_first_occurrence (l.filter (fun a => a.url != ""))).length
      ≤ 0 + (l.filter (fun a => a.url != "")).length :=
        collapse_length_le (l.filter (fun a => a.url != "")) []
    _ ≤ l.length := by simpa using List.length_filter_le _ l

theorem filterMap_const_none (l : List Article) :
    l.filterMap (fun _ => (none : Option String)) = [] := by
  induction l with
  | nil => rfl
  | cons a l ih => simp [List.filterMap_cons, ih]

theorem filter_length_sum (p : α → Bool) (l : List α) :
    (l.filter p).length + (l.filter (fun a => !p a)).length = l.length := by
  induction l with
  | nil => rfl
  | cons a l ih =>
    by_cases h : p a <;> simp [List.filter_cons, h] <;> omega

/-! ### The claims -/

/-- C1: evaluate_run_success(run_data) returns True iff articlesStored > 0
AND (sourcesChecked == 0 OR sourcesFailed / sourcesChecked < 0.5) AND
(duration unset OR duration ≤ 300); and the four boundary instances:
stats 10/5/stored-10 is False (exactly 50 percent), 100/49/stored-10 is
True, stored 0 is False regardless of the other fields, and checked 0 with
stored 10 is True. -/
theorem C1_evaluate_run_success :
    (∀ rd : RunData,
        evaluate_run_success rd = true ↔
          0 < rd.stats.articlesStored ∧
          (rd.stats.sourcesChecked = 0 ∨
            (rd.stats.sourcesFailed : ℚ) / (rd.stats.sourcesChecked : ℚ) < 1 / 2) ∧
          (rd.duration = none ∨ ∃ d, rd.duration = some d ∧ d ≤ 300)) ∧
    evaluate_run_success
      { stats := { articlesStored := 10, sourcesChecked := 10, sourcesFailed := 5 },
        duration := none } = false ∧
    evaluate_run_success
      { stats := { articlesStored := 10, sourcesChecked := 100, sourcesFailed := 49 },
        duration := none } = true ∧
    (∀ (sc sf : Nat) (d : Option ℚ),
      evaluate_run_success
        { stats := { articlesStored := 0, sourcesChecked := sc, sourcesFailed := sf },
          duration := d } = false) ∧
    evaluate_run_success
      { stats := { articlesStored := 10, sourcesChecked := 0, sourcesFailed := 0 },
        duration := none } = true := by
  refine ⟨?_, ?_, ?_, ?_, ?_⟩
  · intro rd
    obtain ⟨⟨a, sc, sf⟩, d⟩ := rd
    cases d with
    | none =>
      simp only [evaluate_run_success, Option.getD_none]
      split_ifs with h1 h2 h3
      · refine iff_of_false (by simp) ?_
        rintro ⟨ha, -, -⟩
        omega
      · refine iff_of_false (by simp) ?_
        rintro ⟨-, hsc | hratio, -⟩
        · omega
        · exact absurd h2.2 (not_le.mpr hratio)
      · exact absurd rfl h3.1
      · refine iff_of_true rfl ⟨by omega, ?_, Or.inl (by simp)⟩
        rcases Nat.eq_zero_or_pos sc with h | h
        · exact Or.inl h
        · refine Or.inr ?_
          by_contra hlt
          exact h2 ⟨h, not_lt.mp hlt⟩
    | some dd =>
      simp only [evaluate_run_success, Option.getD_some]
      split_ifs with h1 h2 h3
      · refine iff_of_false (by simp) ?_
        rintro ⟨ha, -, -⟩
        omega
      · refine iff_of_false (by simp) ?_
        rintro ⟨-, hsc | hratio, -⟩
        · omega
        · exact absurd h2.2 (not_le.mpr hratio)
      · refine iff_of_false (by simp) ?_
        rintro ⟨-, -, hnone | ⟨e, he, hle⟩⟩
        · exact absurd hnone (by simp)
        · have : e = dd := by simpa using he.symm
          subst this
          exact absurd h3.2 (not_lt.mpr hle)
      · refine iff_of_true rfl ⟨by omega, ?_, Or.inr ⟨dd, by simp, ?_⟩⟩
        · rcases Nat.eq_zero_or_pos sc with h | h
          · exact Or.inl h
          · refine Or.inr ?_
            by_contra hlt
            exact h2 ⟨h, not_lt.mp hlt⟩
        · rcases eq_or_ne dd 0 with h | h
          · rw [h]; norm_num
          · by_contra hgt
            exact h3 ⟨h, not_le.mp hgt⟩
  · norm_num [evaluate_run_success]
  · norm_num [evaluate_run_success]
  · intro sc sf d
    simp [evaluate_run_success]
  · norm_num [evaluate_run_success]

/-- C2 counterexample: for the newest active run whose startedAt is missing
or falsy the claim demands the stale_cleanup force-write, but
check_active_run skips the run and writes nothing. -/
theorem C2_counterexample : ¬ C2_claim_statement := by
  intro h
  obtain ⟨-, h2⟩ := h 1000 absentDoc "run-new" (Or.inl rfl)
  obtain ⟨-, ⟨u, hu, -⟩, -⟩ := h2 (by norm_num [claimedAge, absentDoc])
  simp [check_active_run, absentDoc] at hu

/-- C2 (amended): the guard is a function of the newest run with status in
accepted or running.  If its startedAt carries a timestamp t and now - t is
under 600 seconds, the request is rejected with a conflict carrying that
run's id; if now - t is at least 600 seconds, or startedAt is present but
cannot be read as a timestamp (treated as age 601), the guard force-writes
the stale_cleanup update (status failed, phase stale_cleanup, completedAt
now, an explanatory error) and the request is accepted; but if startedAt is
missing or falsy the guard skips the run entirely, writes nothing, and the
request is accepted. -/
theorem C2_idempotency_guard :
    ∀ (now : ℚ) (doc : RunDoc) (rid : String),
      (doc.startedAt = StartedAt.absent →
          check_active_run now (some doc) = { active := none, cleaned := none } ∧
          trigger_ingestion now (some doc) rid = TriggerOutcome.accepted rid) ∧
      (∀ t, doc.startedAt = StartedAt.valid t → now - t < 600 →
          check_active_run now (some doc) = { active := some doc.id, cleaned := none } ∧
          trigger_ingestion now (some doc) rid = TriggerOutcome.conflict doc.id) ∧
      (∀ t, doc.startedAt = StartedAt.valid t → 600 ≤ now - t →
          check_active_run now (some doc) =
            { active := none, cleaned := some (staleUpdate doc now (now - t)) } ∧
          trigger_ingestion now (some doc) rid = TriggerOutcome.accepted rid) ∧
      (doc.startedAt = StartedAt.malformed →
          check_active_run now (some doc) =
            { active := none, cleaned := some (staleUpdate doc now 601) } ∧
          trigger_ingestion now (some doc) rid = TriggerOutcome.accepted rid) ∧
      (∀ (d : RunDoc) (age : ℚ),
          (staleUpdate d now age).status = RunStatus.failed ∧
          (staleUpdate d now age).phase = "stale_cleanup" ∧
          (staleUpdate d now age).completedAt = some now ∧
          (staleUpdate d now age).errors ≠ []) := by
  intro now doc rid
  refine ⟨?_, ?_, ?_, ?_, ?_⟩
  · intro h
    constructor <;> simp [check_active_run, trigger_ingestion, h]
  · intro t ht hlt
    constructor <;> simp [check_active_run, trigger_ingestion, ht, hlt]
  · intro t ht hge
    have hnot : ¬ (now - t < 600) := not_lt.mpr hge
    constructor <;> simp [check_active_run, trigger_ingestion, ht, hnot]
  · intro h
    have hnot : ¬ ((601 : ℚ) < 600) := by norm_num
    constructor <;> simp [check_active_run, trigger_ingestion, h, hnot]
  · intro d age
    exact ⟨rfl, rfl, rfl, by simp [staleUpdate]⟩

/-- C3: at finalization, no errors with at least one stored article gives
completed, errors with at least one stored article gives
completed_with_errors, errors with zero stored articles gives failed, and
the written error list is capped at 50 entries (the first 50). -/
theorem C3_final_status :
    ∀ (errors : List ErrorEntry) (stored : Nat) (dur : ℚ),
      (errors = [] → 0 < stored →
          (finalize_run errors stored dur).status = RunStatus.completed) ∧
      (errors ≠ [] → 0 < stored →
          (finalize_run errors stored dur).status = RunStatus.completed_with_errors) ∧
      (errors ≠ [] → stored = 0 →
          (finalize_run errors stored dur).status = RunStatus.failed) ∧
      (finalize_run errors stored dur).errors = errors.take 50 ∧
      (finalize_run errors stored dur).errors.length ≤ 50 := by
  intro errors stored dur
  refine ⟨?_, ?_, ?_, rfl, ?_⟩
  · intro h1 h2
    simp [finalize_run, final_status, h1]
  · intro h1 h2
    simp only [finalize_run, final_status]
    rw [if_neg (fun hc => absurd hc.2 (by omega)), if_pos h1]
  · intro h1 h2
    simp only [finalize_run, final_status]
    rw [if_pos ⟨h1, h2⟩]
  · simp [finalize_run]

/-- C4: over the gather results for N sources of which K fail,
sources_failed is exactly K, the error list has exactly one entry per
failed source (and for per-source failures that entry carries the source
name, url and message), and all_articles is the concatenation of the
normalized articles of every succeeding source - a failure never drops
another source's articles and the loop always processes the whole result
list. -/
theorem C4_source_failure_isolation :
    ∀ results : List FetchOutcome,
      (process_fetch_results results).sources_failed =
        (results.filter fetchFailed).length ∧
      (process_fetch_results results).errors = results.filterMap fetchError ∧
      (process_fetch_results results).errors.length =
        (results.filter fetchFailed).length ∧
      (process_fetch_results results).all_articles =
        (results.map fetchArticles).flatten ∧
      (∀ (source : Source) (msg : String),
        FetchOutcome.failure source msg ∈ results →
          ({ message := msg, source := some source.name, url := some source.url } :
            ErrorEntry) ∈ (process_fetch_results results).errors) := by
  intro results
  have H := harvest_foldl results
    { errors := [], all_articles := [], sources_failed := 0, sources_processed := 0 }
  refine ⟨?_, ?_, ?_, ?_, ?_⟩
  · simp [process_fetch_results, H]
  · simp [process_fetch_results, H]
  · simp only [process_fetch_results, H, List.nil_append]
    exact fetchError_length results
  · simp [process_fetch_results, H]
  · intro source msg hmem
    simp only [process_fetch_results, H, List.nil_append]
    exact List.mem_filterMap.mpr ⟨FetchOutcome.failure source msg, hmem, rfl⟩

/-- C5 counterexample: an article whose URL is the empty string is not
collapsed to its first occurrence - it is dropped entirely and nothing is
persisted for it, so the claimed description of the dedup step fails. -/
theorem C5_counterexample : ¬ C5_claim_statement := by
  intro h
  exact absurd (h emptyUrlReq).1 (by decide)

/-- C5 (amended): the dedup loop collapses the articles with a non-empty
URL to the first occurrence of each URL and drops empty-URL articles
entirely; with no preparation failures the persisted documents are exactly
that unique list, failed_count and failed_urls stay empty,
duplicates_skipped is the input length minus the unique count (reported in
storage_stats, apart from the failure fields), writes go in chunks of at
most 500 and batch_count is the ceiling of unique/500; on URLs
[a,a,b,c,c,c] this gives duplicates_skipped 3 and exactly the three
documents a, b, c. -/
theorem C5_dedup_accounting :
    (∀ req : StoreArticlesRequest,
        dedup_articles req.articles =
          collapse_to_first_occurrence (req.articles.filter (fun a => a.url != "")) ∧
        (store_articles none (fun _ => false) req).2 = dedup_articles req.articles ∧
        (store_articles none (fun _ => false) req).1.stored_count =
          (dedup_articles req.articles).length ∧
        (store_articles none (fun _ => false) req).1.failed_count = 0 ∧
        (store_articles none (fun _ => false) req).1.failed_urls = [] ∧
        (store_articles none (fun _ => false) req).1.storage_stats =
          StorageStats.ok (dedup_articles req.articles).length
            (req.articles.length - (dedup_articles req.articles).length)
            (((dedup_articles req.articles).length + store_batch_size - 1) /
              store_batch_size) ∧
        (∀ c ∈ chunksOf store_batch_size (dedup_articles req.articles),
            c.length ≤ store_batch_size)) ∧
    (store_articles none (fun _ => false) exStoreReq).1.storage_stats =
      StorageStats.ok 3 3 1 ∧
    ((store_articles none (fun _ => false) exStoreReq).2.map (fun a => a.url)) =
      ["a", "b", "c"] := by
  refine ⟨?_, by decide, by decide⟩
  intro req
  have h := store_articles_none (fun _ => false) req
  refine ⟨dedup_articles_eq_collapse req.articles, ?_, ?_, ?_, ?_, ?_, ?_⟩
  · rw [h]; simp
  · rw [h]; simp
  · rw [h]; simp
  · rw [h]; simp
  · rw [h]; simp
  · intro c hc
    exact chunksOfAux_mem_length 499 _ _ c hc

/-- C6: when an exception escapes the whole store_articles try block, the
response reports zero stored, failed_count equal to the input length,
failed_urls listing every input URL, an error storage stat, and nothing is
written. -/
theorem C6_total_failure :
    ∀ (e : String) (prepFails : Article → Bool) (req : StoreArticlesRequest),
      store_articles (some e) prepFails req =
        ({ run_id := req.run_id
           stored_count := 0
           failed_count := req.articles.length
           failed_urls := req.articles.map (fun a => a.url)
           storage_stats := StorageStats.error e }, []) ∧
      (∀ a ∈ req.articles,
        a.url ∈ (store_articles (some e) prepFails req).1.failed_urls) := by
  intro e pf req
  refine ⟨rfl, ?_⟩
  intro a ha
  exact List.mem_map_of_mem _ ha

/-- C9: an input article with an empty url never reaches the write loop: it
is not in the unique list, its url is never recorded in failed_urls, it is
never written, and it is absorbed into duplicates_skipped, so stored_count
plus failed_count plus duplicates_skipped equals the input length for any
pattern of per-article preparation failures. -/
theorem C9_empty_url_dropped :
    ∀ (prepFails : Article → Bool) (req : StoreArticlesRequest),
      (∀ a ∈ dedup_articles req.articles, a.url ≠ "") ∧
      "" ∉ (store_articles none prepFails req).1.failed_urls ∧
      (∀ a ∈ (store_articles none prepFails req).2, a.url ≠ "") ∧
      (store_articles none prepFails req).1.stored_count +
          (store_articles none prepFails req).1.failed_count +
          (req.articles.length - (dedup_articles req.articles).length) =
        req.articles.length ∧
      (store_articles none prepFails req).1.storage_stats =
        StorageStats.ok (store_articles none prepFails req).1.stored_count
          (req.articles.length - (dedup_articles req.articles).length)
          (((dedup_articles req.articles).length + store_batch_size - 1) /
            store_batch_size) := by
  intro pf req
  have h := store_articles_none pf req
  have hno := dedup_no_empty_url req.articles
  refine ⟨hno, ?_, ?_, ?_, ?_⟩
  · rw [h]
    intro hmem
    simp only [List.mem_map] at hmem
    obtain ⟨a, hin, hurl⟩ := hmem
    exact hno a (List.mem_of_mem_filter hin) hurl
  · rw [h]
    intro a ha
    exact hno a (List.mem_of_mem_filter ha)
  · rw [h]
    have hsum := filter_length_sum pf (dedup_articles req.articles)
    have hle := dedup_length_le req.articles
    simp only []
    omega
  · rw [h]

/-- C7 counterexample: running the claimed sequential example (5 articles
of category x from no record, then 3 articles of category y) ends with the
record's categories equal to the second batch's set alone, not the union
with the first batch's set, refuting the union reading on that input. -/
theorem C7_counterexample : ¬ C7_claim_statement := by
  intro h
  obtain ⟨w, hw, -, hcat⟩ := h demoHash demoParse (some demo_w1) 0 demoReq2 (by decide)
  have hww : w = demo_w2 := by
    have hdef : demo_w2 =
        ((upsert_author none demoHash demoParse (some demo_w1) 0 demoReq2).2).getD
          blankAuthor := rfl
    rw [hdef, hw]
    rfl
  rw [hww] at hcat
  exact absurd hcat (by decide)

/-- C7 (amended): a successful upsert with a non-empty batch writes
articleCount equal to the prior count (0 when no record exists) plus this
batch's article count; the stored categories are this batch's category set
when that set is non-empty, and otherwise the field is left at the prior
record's categories - prior categories are replaced, not unioned.  In the
sequential example (5 then 3 articles, categories x then y, from no
record), the final record has articleCount 8 and categories equal to the
second batch's set alone. -/
theorem C7_author_counter :
    (∀ (urlHash : String → String) (parseDate : String → Option ℚ)
        (existing : Option AuthorDoc) (now : ℚ) (req : UpsertAuthorRequest),
        req.articles ≠ [] →
        ∃ w, (upsert_author none urlHash parseDate existing now req).2 = some w ∧
          w.articleCount =
            (match existing with | some d => d.articleCount | none => 0) +
              req.articles.length ∧
          w.categories =
            (if batch_categories req.articles = ∅ then
                match existing with | some d => d.categories | none => none
              else some (batch_categories req.articles))) ∧
    demo_w1.articleCount = 5 ∧
    demo_w1.categories = some {"x"} ∧
    demo_w2.articleCount = 8 ∧
    demo_w2.categories = some {"y"} := by
  refine ⟨?_, by decide, by decide, by decide, by decide⟩
  intro urlHash parseDate existing now req h
  simp only [upsert_author, if_neg h]
  cases existing with
  | none =>
    refine ⟨_, rfl, by simp [merge_author], ?_⟩
    by_cases hc : batch_categories req.articles = ∅ <;> simp [merge_author, hc]
  | some d =>
    refine ⟨_, rfl, by simp [merge_author], ?_⟩
    by_cases hc : batch_categories req.articles = ∅ <;> simp [merge_author, hc]

/-- C8 counterexample: with no usable feed metadata and feed URL
https://news.www.example.com/rss the code resolves the name to
news.example.com (every "www." occurrence removed by str.replace), while
the claimed leading-"www." strip would keep news.www.example.com. -/
theorem C8_counterexample : ¬ C8_claim_statement := by
  intro h
  exact absurd (h none [mkArticle "u" []] "https://news.www.example.com/rss") (by decide)

/-- C8 (amended): the author name is the feed metadata title when truthy,
else the feed metadata author when truthy, else - the first-article author
fallback never applies because the Article model has no author field - the
network location of the feed URL with every occurrence of "www." removed;
the response and the written record both carry that resolved name. -/
theorem C8_name_resolution :
    (∀ (fm : Option FeedMetadata) (articles : List Article) (url : String),
        resolve_author_name fm articles url =
          (match fm with
           | some m =>
             (match pyOrStr m.title m.author with
              | some s => if s = "" then pyReplace (netloc url) "www." "" else s
              | none => pyReplace (netloc url) "www." "")
           | none => pyReplace (netloc url) "www." "")) ∧
    (∀ (urlHash : String → String) (parseDate : String → Option ℚ)
        (existing : Option AuthorDoc) (now : ℚ) (req : UpsertAuthorRequest),
        req.articles ≠ [] →
        (upsert_author none urlHash parseDate existing now req).1.author_name =
          some (resolve_author_name req.feed_metadata req.articles req.feed_url) ∧
        (∃ w, (upsert_author none urlHash parseDate existing now req).2 = some w ∧
          w.name = resolve_author_name req.feed_metadata req.articles req.feed_url)) ∧
    resolve_author_name none [mkArticle "u" []] "https://news.www.example.com/rss" =
      "news.example.com" ∧
    resolve_author_name (some { title := some "Feed Title", author := some "Meta Author" })
      [mkArticle "u" []] "https://x.example/rss" = "Feed Title" ∧
    resolve_author_name (some { title := none, author := some "Meta Author" })
      [mkArticle "u" []] "https://x.example/rss" = "Meta Author" := by
  refine ⟨?_, ?_, by decide, by decide, by decide⟩
  · intro fm articles url
    cases fm with
    | none => simp [resolve_author_name, truthyStr, filterMap_const_none]
    | some m =>
      rcases hm : pyOrStr m.title m.author with _ | s
      · simp [resolve_author_name, hm, truthyStr, filterMap_const_none]
      · by_cases hs : s = ""
        · subst hs
          simp [resolve_author_name, hm, truthyStr, filterMap_const_none]
        · simp [resolve_author_name, hm, truthyStr, hs]
  · intro urlHash parseDate existing now req h
    simp only [upsert_author, if_neg h]
    cases existing <;> exact ⟨by simp, _, rfl, rfl⟩

/-- C10: whenever upsert_author answers created or updated it has written a
record with status active and consecutiveErrors 0, whatever the prior
record's status and error streak were. -/
theorem C10_consecutive_errors_reset :
    ∀ (dbError : Option String) (urlHash : String → String)
      (parseDate : String → Option ℚ) (existing : Option AuthorDoc) (now : ℚ)
      (req : UpsertAuthorRequest),
      (upsert_author dbError urlHash parseDate existing now req).1.status = "created" ∨
        (upsert_author dbError urlHash parseDate existing now req).1.status = "updated" →
      ∃ w, (upsert_author dbError urlHash parseDate existing now req).2 = some w ∧
        w.status = "active" ∧ w.consecutiveErrors = 0 := by
  intro dbError urlHash parseDate existing now req hstatus
  by_cases hreq : req.articles = []
  · exfalso
    rcases hstatus with h | h <;> simp [upsert_author, hreq] at h
  · cases dbError with
    | some e =>
      exfalso
      rcases hstatus with h | h <;> simp [upsert_author, hreq] at h
    | none =>
      simp only [upsert_author, if_neg hreq]
      refine ⟨_, rfl, ?_, ?_⟩ <;> cases existing <;> rfl

/-- C10 witness: a concrete updated upsert on a prior record with status
error and consecutiveErrors 7 writes status active and consecutiveErrors
0. -/
theorem C10_witness :
    ∃ w, (upsert_author none demoHash demoParse (some priorErrDoc) 0 demoReq2).2 = some w ∧
      w.status = "active" ∧ w.consecutiveErrors = 0 :=
  C10_consecutive_errors_reset none demoHash demoParse (some priorErrDoc) 0 demoReq2
    (Or.inr (by decide))

end Perception
